import Mathlib

/-!
Verification development for the KVC-PIM KV-cache placement core.

Shallow embedding of `src/simulator/src/pim_codegen/kv_cache_policy.h`,
`src/simulator/src/pim_codegen/static_weight_loader.h`,
`src/simulator/src/frontend/impl/memory_trace/kv_cache_trace_generator.h`
and the bank conflict tracker header.

Conventions of the embedding:
* `std::map<int, std::unordered_set<uint64_t>>` is an association list from
  bank index to the list of distinct address signatures held by that bank
  (insertion deduplicates, matching set semantics).
* C++ `int` fields that only ever hold non-negative values in the modelled
  flows (bank indices, counters, cursors) are `Nat`; configuration scalars
  that may legitimately be negative are `Int`.
* `std::vector<int>` counters indexed by bank are total functions
  `Nat → Nat`; the code only reads indices below `num_banks`.
* `double` scores are `ℚ`; the claims settled here depend only on which
  candidate list the selected bank belongs to, never on rounding.
-/

namespace KVCPIM

/-- Association list modelling `std::map<int, std::unordered_set<uint64_t>>`:
bank id mapped to the distinct address signatures resident in that bank. -/
abbrev WeightMap := List (Nat × List Nat)

/-- The `it != map.end() && !it->second.empty()` test used by the policies'
`has_bank_conflict` implementations. -/
def hasNonemptyEntry (m : WeightMap) (b : Nat) : Bool :=
  match m.lookup b with
  | some s => !s.isEmpty
  | none => false

/-- `map[k].insert(a)` on a `std::map<int, std::unordered_set<uint64_t>>`:
creates the entry when absent, set insertion deduplicates. -/
def WeightMap.insertAddr (m : WeightMap) (k : Nat) (a : Nat) : WeightMap :=
  match m with
  | [] => [(k, [a])]
  | (k', s) :: rest =>
      if k' = k then (k', if a ∈ s then s else a :: s) :: rest
      else (k', s) :: WeightMap.insertAddr rest k a

/-! ## NaiveKVCachePolicy (kv_cache_policy.h lines 35-85) -/

structure NaiveKVCachePolicy where
  num_banks : Nat
  next_bank : Nat
  token_to_bank : Nat → Option Nat
  static_weight_mapping : WeightMap
  total_allocations : Nat
  total_conflicts : Nat

/-- `NaiveKVCachePolicy::init(dram, num_banks, mapping)` on a freshly
constructed object (member initialisers zero the counters). -/
def NaiveKVCachePolicy.init (num_banks : Nat) (mapping : WeightMap) :
    NaiveKVCachePolicy :=
  { num_banks := num_banks
    next_bank := 0
    token_to_bank := fun _ => none
    static_weight_mapping := mapping
    total_allocations := 0
    total_conflicts := 0 }

/-- `NaiveKVCachePolicy::has_bank_conflict`. -/
def NaiveKVCachePolicy.has_bank_conflict (s : NaiveKVCachePolicy) (bank_id : Nat) : Bool :=
  hasNonemptyEntry s.static_weight_mapping bank_id

/-- `NaiveKVCachePolicy::allocate_kv_cache_bank`: returns the chosen bank and
the updated policy state. -/
def NaiveKVCachePolicy.allocate_kv_cache_bank (s : NaiveKVCachePolicy)
    (token_id : Nat) : Nat × NaiveKVCachePolicy :=
  if s.num_banks = 0 then (0, s)
  else
    let bank_id := s.next_bank
    let s' : NaiveKVCachePolicy :=
      { s with
        next_bank := (s.next_bank + 1) % s.num_banks
        token_to_bank := fun t => if t = token_id then some bank_id else s.token_to_bank t
        total_allocations := s.total_allocations + 1 }
    let s'' : NaiveKVCachePolicy :=
      if s'.has_bank_conflict bank_id then
        { s' with total_conflicts := s'.total_conflicts + 1 }
      else s'
    (bank_id, s'')

/-- `NaiveKVCachePolicy::get_kv_cache_bank` (−1 when the token is unknown). -/
def NaiveKVCachePolicy.get_kv_cache_bank (s : NaiveKVCachePolicy) (token_id : Nat) : Int :=
  match s.token_to_bank token_id with
  | some b => (b : Int)
  | none => -1

/-- `NaiveKVCachePolicy::reset_stats`. -/
def NaiveKVCachePolicy.reset_stats (s : NaiveKVCachePolicy) : NaiveKVCachePolicy :=
  { s with total_allocations := 0, total_conflicts := 0 }

/-- Allocate each token of the list in order (one
`allocate_kv_cache_bank` call per token), keeping the final state. -/
def NaiveKVCachePolicy.run (s : NaiveKVCachePolicy) (tokens : List Nat) :
    NaiveKVCachePolicy :=
  tokens.foldl (fun st t => (st.allocate_kv_cache_bank t).2) s

/-! ## BankPartitioningPolicy (kv_cache_policy.h lines 87-156) -/

structure BankPartitioningPolicy where
  num_banks : Nat
  kv_cache_banks_start : Nat
  kv_cache_banks_count : Nat
  next_kv_bank : Nat
  token_to_bank : Nat → Option Nat
  static_weight_mapping : WeightMap
  total_allocations : Nat
  total_conflicts : Nat

/-- Clamping performed by `BankPartitioningPolicy::init` on the two
configuration scalars (which a user may set to any int); result is the
`(start, count)` pair stored in the member fields. -/
def bp_clamp (num_banks : Nat) (cfg_count cfg_start : Int) : Nat × Nat :=
  let c : Int := if cfg_count ≤ 0 then 1 else cfg_count
  let s : Int := if cfg_start < 0 then 0 else cfg_start
  if s + c > (num_banks : Int) then
    if s < (num_banks : Int) then (s.toNat, ((num_banks : Int) - s).toNat)
    else (0, if (num_banks : Int) > 4 then 4 else 1)
  else (s.toNat, c.toNat)

/-- `BankPartitioningPolicy::init` with explicit configuration values for
`kv_cache_banks_count` and `kv_cache_banks_start`. -/
def BankPartitioningPolicy.init (num_banks : Nat) (mapping : WeightMap)
    (cfg_count cfg_start : Int) : BankPartitioningPolicy :=
  let sc := bp_clamp num_banks cfg_count cfg_start
  { num_banks := num_banks
    kv_cache_banks_start := sc.1
    kv_cache_banks_count := sc.2
    next_kv_bank := sc.1
    token_to_bank := fun _ => none
    static_weight_mapping := mapping
    total_allocations := 0
    total_conflicts := 0 }

/-- `BankPartitioningPolicy::init` when the configuration does not set the
two scalars: `param<int>("kv_cache_banks_count").default_val(4)` and
`param<int>("kv_cache_banks_start").default_val(0)`. -/
def BankPartitioningPolicy.init_default (num_banks : Nat) (mapping : WeightMap) :
    BankPartitioningPolicy :=
  BankPartitioningPolicy.init num_banks mapping 4 0

/-- `BankPartitioningPolicy::has_bank_conflict`. -/
def BankPartitioningPolicy.has_bank_conflict (s : BankPartitioningPolicy)
    (bank_id : Nat) : Bool :=
  if s.kv_cache_banks_start ≤ bank_id ∧
      bank_id < s.kv_cache_banks_start + s.kv_cache_banks_count then
    hasNonemptyEntry s.static_weight_mapping bank_id
  else false

/-- `BankPartitioningPolicy::allocate_kv_cache_bank`. -/
def BankPartitioningPolicy.allocate_kv_cache_bank (s : BankPartitioningPolicy)
    (token_id : Nat) : Nat × BankPartitioningPolicy :=
  if s.kv_cache_banks_count = 0 then (0, s)
  else
    let bank_id := s.next_kv_bank
    let offset := (s.next_kv_bank - s.kv_cache_banks_start + 1) % s.kv_cache_banks_count
    let s' : BankPartitioningPolicy :=
      { s with
        next_kv_bank := s.kv_cache_banks_start + offset
        token_to_bank := fun t => if t = token_id then some bank_id else s.token_to_bank t
        total_allocations := s.total_allocations + 1 }
    let s'' : BankPartitioningPolicy :=
      if s'.has_bank_conflict bank_id then
        { s' with total_conflicts := s'.total_conflicts + 1 }
      else s'
    (bank_id, s'')

/-- `BankPartitioningPolicy::reset_stats`. -/
def BankPartitioningPolicy.reset_stats (s : BankPartitioningPolicy) :
    BankPartitioningPolicy :=
  { s with total_allocations := 0, total_conflicts := 0 }

/-! ## ContentionAwarePolicy (kv_cache_policy.h lines 158-311)

`allocate_kv_cache_bank` reads and writes a function-local
`static int last_allocated_bank = 3;`.  That cursor is process-global C++
state (shared by every `ContentionAwarePolicy` instance and surviving
`init`/`reset_stats`), so the embedding threads it explicitly: the
allocation function takes the cursor value and returns the new one
alongside the chosen bank and the updated object state. -/

structure ContentionAwarePolicy where
  num_banks : Nat
  token_to_bank : Nat → Option Nat
  static_weight_count : Nat → Nat
  dynamic_alloc_count : Nat → Nat
  total_allocations : Nat
  total_conflicts : Nat
  allocation_order : List Nat

/-- Per-bank weight counts derived by
`ContentionAwarePolicy::set_static_weight_mapping`: entries of the map with
an in-range bank id contribute the size of their signature set. -/
def static_count_of_map (num_banks : Nat) (mapping : WeightMap) : Nat → Nat :=
  mapping.foldl
    (fun acc p =>
      if p.1 < num_banks then fun b => if b = p.1 then p.2.length else acc b
      else acc)
    (fun _ => 0)

/-- `ContentionAwarePolicy::init` on a freshly constructed object: the bank
count is forced to at least 1 and the per-bank counters are derived from the
mapping via the setter. -/
def ContentionAwarePolicy.init (num_banks : Nat) (mapping : WeightMap) :
    ContentionAwarePolicy :=
  let n := if num_banks = 0 then 1 else num_banks
  { num_banks := n
    token_to_bank := fun _ => none
    static_weight_count := static_count_of_map n mapping
    dynamic_alloc_count := fun _ => 0
    total_allocations := 0
    total_conflicts := 0
    allocation_order := [] }

/-- The `while (attempts < m_num_banks * 2)` scan of
`ContentionAwarePolicy::allocate_kv_cache_bank`: advance the cursor
round-robin, stop at the first bank with no static weights and fewer than 3
dynamic allocations.  Returns the found bank (if any) and the final cursor
value. -/
def ca_scan (swc dyn : Nat → Nat) (num_banks : Nat) :
    Nat → Nat → Option Nat × Nat
  | 0, last => (none, last)
  | fuel + 1, last =>
    let last' := (last + 1) % num_banks
    if swc last' = 0 ∧ dyn last' < 3 then (some last', last')
    else ca_scan swc dyn num_banks fuel last'

/-- The fallback of `ContentionAwarePolicy::allocate_kv_cache_bank`: first
bank attaining the minimum `dynamic_alloc_count` (the running minimum starts
at `INT_MAX`, modelled as `none`). -/
def ca_fallback (dyn : Nat → Nat) (num_banks : Nat) : Option Nat :=
  ((List.range num_banks).foldl
    (fun (acc : Option Nat × Option Nat) bank_id =>
      if (match acc.2 with
          | none => true
          | some m => decide (dyn bank_id < m)) then
        (some bank_id, some (dyn bank_id))
      else acc)
    (none, none)).1

/-- `ContentionAwarePolicy::has_bank_conflict`. -/
def ContentionAwarePolicy.has_bank_conflict (s : ContentionAwarePolicy)
    (bank_id : Nat) : Bool :=
  if bank_id < s.num_banks then decide (0 < s.static_weight_count bank_id)
  else false

/-- `ContentionAwarePolicy::allocate_kv_cache_bank`.  `last` is the value of
the function-local static cursor on entry; the middle component of the
result is its value on exit. -/
def ContentionAwarePolicy.allocate_kv_cache_bank (last : Nat)
    (s : ContentionAwarePolicy) (token_id : Nat) :
    Nat × Nat × ContentionAwarePolicy :=
  let scanned := ca_scan s.static_weight_count s.dynamic_alloc_count
      s.num_banks (s.num_banks * 2) last
  let best_bank :=
    match scanned.1 with
    | some b => b
    | none => (ca_fallback s.dynamic_alloc_count s.num_banks).getD 0
  let s' : ContentionAwarePolicy :=
    { s with
      token_to_bank := fun t => if t = token_id then some best_bank else s.token_to_bank t
      dynamic_alloc_count := fun b =>
        if b = best_bank then s.dynamic_alloc_count b + 1 else s.dynamic_alloc_count b
      total_allocations := s.total_allocations + 1
      allocation_order := s.allocation_order ++ [best_bank] }
  let s'' : ContentionAwarePolicy :=
    if s'.has_bank_conflict best_bank then
      { s' with total_conflicts := s'.total_conflicts + 1 }
    else s'
  (best_bank, scanned.2, s'')

/-- `ContentionAwarePolicy::reset_stats`: zeroes the two counters, fills
`m_dynamic_alloc_count` with 0 and clears `m_allocation_order`. -/
def ContentionAwarePolicy.reset_stats (s : ContentionAwarePolicy) :
    ContentionAwarePolicy :=
  { s with
    total_allocations := 0
    total_conflicts := 0
    dynamic_alloc_count := fun _ => 0
    allocation_order := [] }

/-- Allocate each token of the list in order, threading the process-global
cursor through the calls. -/
def ContentionAwarePolicy.run (last : Nat) (s : ContentionAwarePolicy)
    (tokens : List Nat) : Nat × ContentionAwarePolicy :=
  match tokens with
  | [] => (last, s)
  | t :: ts =>
    let r := s.allocate_kv_cache_bank last t
    ContentionAwarePolicy.run r.2.1 r.2.2 ts

/-! ## SmartLocalityPolicy (kv_cache_policy.h lines 313-529) -/

structure SmartLocalityPolicy where
  num_banks : Nat
  token_to_bank : Nat → Option Nat
  static_weight_count : Nat → Nat
  dynamic_alloc_count : Nat → Nat
  bank_activity : Nat → Nat
  locality_weight : ℚ
  max_kv_per_bank : Nat
  activity_threshold_percent : Nat
  total_allocations : Nat
  total_conflicts : Nat

/-- Maximum entry-set size over the in-range entries of the weight map, as
computed by `SmartLocalityPolicy::set_static_weight_mapping`. -/
def sl_max_weight_count (num_banks : Nat) (mapping : WeightMap) : Nat :=
  mapping.foldl
    (fun acc p => if p.1 < num_banks ∧ acc < p.2.length then p.2.length else acc) 0

/-- Per-bank activity score `(static_weight_count[i] * 100) / max_weight_count`
(scores stay 0 when no bank holds weights). -/
def sl_activity (num_banks : Nat) (mapping : WeightMap) : Nat → Nat :=
  let swc := static_count_of_map num_banks mapping
  let mx := sl_max_weight_count num_banks mapping
  if mx = 0 then fun _ => 0 else fun b => swc b * 100 / mx

/-- `SmartLocalityPolicy::init` on a freshly constructed object (parameters
are hard-coded: locality weight 0.3, cap 3, threshold 10). -/
def SmartLocalityPolicy.init (num_banks : Nat) (mapping : WeightMap) :
    SmartLocalityPolicy :=
  let n := if num_banks = 0 then 1 else num_banks
  { num_banks := n
    token_to_bank := fun _ => none
    static_weight_count := static_count_of_map n mapping
    dynamic_alloc_count := fun _ => 0
    bank_activity := sl_activity n mapping
    locality_weight := 3 / 10
    max_kv_per_bank := 3
    activity_threshold_percent := 10
    total_allocations := 0
    total_conflicts := 0 }

/-- Allocation score of a candidate bank (lower is better): penalties for
static weights and existing allocations, locality bonus in the 20-80
activity band. -/
def sl_score (s : SmartLocalityPolicy) (bank_id : Nat) : ℚ :=
  let base : ℚ := (s.static_weight_count bank_id : ℚ) * 100 +
      (s.dynamic_alloc_count bank_id : ℚ) * 10
  if 20 ≤ s.bank_activity bank_id ∧ s.bank_activity bank_id ≤ 80 then
    base - 50 * s.locality_weight
  else base

/-- The candidate-scoring loop: `best_bank` starts at `candidates[0]`,
`best_score` at `DBL_MAX` (modelled as `none`, larger than every score), and
each candidate with a strictly smaller score replaces the best. -/
def sl_select (score : Nat → ℚ) (candidates : List Nat) : Nat :=
  (candidates.foldl
    (fun (acc : Nat × Option ℚ) bank_id =>
      if (match acc.2 with
          | none => true
          | some m => decide (score bank_id < m)) then
        (bank_id, some (score bank_id))
      else acc)
    (candidates.headD 0, none)).1

/-- `SmartLocalityPolicy::has_bank_conflict`. -/
def SmartLocalityPolicy.has_bank_conflict (s : SmartLocalityPolicy)
    (bank_id : Nat) : Bool :=
  if bank_id < s.num_banks then decide (0 < s.static_weight_count bank_id)
  else false

/-- `SmartLocalityPolicy::allocate_kv_cache_bank`: candidates are the banks
without static weights, or all banks when none qualifies; the best-scoring
candidate wins. -/
def SmartLocalityPolicy.allocate_kv_cache_bank (s : SmartLocalityPolicy)
    (token_id : Nat) : Nat × SmartLocalityPolicy :=
  let zero_weight := (List.range s.num_banks).filter
      (fun b => s.static_weight_count b = 0)
  let candidate_banks :=
    if zero_weight.isEmpty then List.range s.num_banks else zero_weight
  let best_bank := sl_select (sl_score s) candidate_banks
  let s' : SmartLocalityPolicy :=
    { s with
      token_to_bank := fun t => if t = token_id then some best_bank else s.token_to_bank t
      dynamic_alloc_count := fun b =>
        if b = best_bank then s.dynamic_alloc_count b + 1 else s.dynamic_alloc_count b
      total_allocations := s.total_allocations + 1 }
  let s'' : SmartLocalityPolicy :=
    if s'.has_bank_conflict best_bank then
      { s' with total_conflicts := s'.total_conflicts + 1 }
    else s'
  (best_bank, s'')

/-- `SmartLocalityPolicy::reset_stats`: zeroes the counters and fills
`m_dynamic_alloc_count` with 0. -/
def SmartLocalityPolicy.reset_stats (s : SmartLocalityPolicy) :
    SmartLocalityPolicy :=
  { s with
    total_allocations := 0
    total_conflicts := 0
    dynamic_alloc_count := fun _ => 0 }

/-! ## BankConflictTracker (bank_conflict_tracker.h) -/

structure ConflictEvent where
  bank_id : Nat
  cycle : Nat
  conflict_type : String
deriving DecidableEq

structure BankConflictTracker where
  num_banks : Nat
  weight_bank_usage : Nat → List Nat
  kv_cache_bank_usage : Nat → List Nat
  active_weight_requests : Nat → List Nat
  active_kv_requests : Nat → List Nat
  total_conflicts : Nat
  weight_kv_conflicts : Nat
  kv_weight_conflicts : Nat
  conflict_history : List ConflictEvent

/-- `BankConflictTracker` constructor: empty sets, zero counters. -/
def BankConflictTracker.mk_tracker (num_banks : Nat) : BankConflictTracker :=
  { num_banks := num_banks
    weight_bank_usage := fun _ => []
    kv_cache_bank_usage := fun _ => []
    active_weight_requests := fun _ => []
    active_kv_requests := fun _ => []
    total_conflicts := 0
    weight_kv_conflicts := 0
    kv_weight_conflicts := 0
    conflict_history := [] }

/-- `unordered_set::insert` on an address list. -/
def setInsert (s : List Nat) (a : Nat) : List Nat :=
  if a ∈ s then s else a :: s

/-- `BankConflictTracker::register_weight_operation`. -/
def BankConflictTracker.register_weight_operation (t : BankConflictTracker)
    (bank_id addr cycle : Nat) : BankConflictTracker :=
  if t.num_banks ≤ bank_id then t
  else
    let t' : BankConflictTracker :=
      { t with
        weight_bank_usage := fun b =>
          if b = bank_id then setInsert (t.weight_bank_usage b) addr
          else t.weight_bank_usage b
        active_weight_requests := fun b =>
          if b = bank_id then t.active_weight_requests b ++ [addr]
          else t.active_weight_requests b }
    if (t.kv_cache_bank_usage bank_id).isEmpty then t'
    else
      { t' with
        total_conflicts := t'.total_conflicts + 1
        weight_kv_conflicts := t'.weight_kv_conflicts + 1
        conflict_history := t'.conflict_history ++ [⟨bank_id, cycle, "weight_kv"⟩] }

/-- `BankConflictTracker::register_kv_cache_operation`. -/
def BankConflictTracker.register_kv_cache_operation (t : BankConflictTracker)
    (bank_id addr cycle : Nat) : BankConflictTracker :=
  if t.num_banks ≤ bank_id then t
  else
    let t' : BankConflictTracker :=
      { t with
        kv_cache_bank_usage := fun b =>
          if b = bank_id then setInsert (t.kv_cache_bank_usage b) addr
          else t.kv_cache_bank_usage b
        active_kv_requests := fun b =>
          if b = bank_id then t.active_kv_requests b ++ [addr]
          else t.active_kv_requests b }
    if (t.weight_bank_usage bank_id).isEmpty then t'
    else
      { t' with
        total_conflicts := t'.total_conflicts + 1
        kv_weight_conflicts := t'.kv_weight_conflicts + 1
        conflict_history := t'.conflict_history ++ [⟨bank_id, cycle, "kv_weight"⟩] }

/-- `BankConflictTracker::complete_weight_operation`: erase the address from
the active vector (`std::remove` + `erase` drops every occurrence); the
usage set is deliberately left alone. -/
def BankConflictTracker.complete_weight_operation (t : BankConflictTracker)
    (bank_id addr : Nat) : BankConflictTracker :=
  if t.num_banks ≤ bank_id then t
  else
    { t with
      active_weight_requests := fun b =>
        if b = bank_id then (t.active_weight_requests b).filter (fun a => a ≠ addr)
        else t.active_weight_requests b }

/-- `BankConflictTracker::complete_kv_cache_operation`. -/
def BankConflictTracker.complete_kv_cache_operation (t : BankConflictTracker)
    (bank_id addr : Nat) : BankConflictTracker :=
  if t.num_banks ≤ bank_id then t
  else
    { t with
      active_kv_requests := fun b =>
        if b = bank_id then (t.active_kv_requests b).filter (fun a => a ≠ addr)
        else t.active_kv_requests b }

/-- `BankConflictTracker::reset_stats`: counters and history only; the usage
sets survive. -/
def BankConflictTracker.reset_stats (t : BankConflictTracker) : BankConflictTracker :=
  { t with
    total_conflicts := 0
    weight_kv_conflicts := 0
    kv_weight_conflicts := 0
    conflict_history := [] }

/-- One public mutating call on the tracker. -/
inductive TrackerOp where
  | registerWeight (bank_id addr cycle : Nat)
  | registerKV (bank_id addr cycle : Nat)
  | completeWeight (bank_id addr : Nat)
  | completeKV (bank_id addr : Nat)
  | resetStats

/-- Apply one tracker call. -/
def TrackerOp.apply (op : TrackerOp) (t : BankConflictTracker) : BankConflictTracker :=
  match op with
  | .registerWeight b a c => t.register_weight_operation b a c
  | .registerKV b a c => t.register_kv_cache_operation b a c
  | .completeWeight b a => t.complete_weight_operation b a
  | .completeKV b a => t.complete_kv_cache_operation b a
  | .resetStats => t.reset_stats

/-- Apply a sequence of tracker calls, first element first. -/
def runTrackerOps (ops : List TrackerOp) (t : BankConflictTracker) : BankConflictTracker :=
  ops.foldl (fun st op => op.apply st) t

/-! ## StaticWeightLoader::load_from_trace (static_weight_loader.h lines 29-101)

The embedding works on lexed trace lines: a line is its opcode string
together with the comma-separated integer address tuple (blank lines and
`#` comments are already dropped by the lexer the loop wraps).  The file
system is an `Option`: `none` is the `!trace_file.is_open()` branch. -/

structure TraceLine where
  op : String
  addr_vec : List Nat

/-- The per-line body of the parse loop. -/
def load_line (num_banks : Nat) (m : WeightMap) (line : TraceLine) : WeightMap :=
  if line.op = "conv2d" ∨ line.op = "gemm" ∨ line.op = "end" then m
  else if 2 ≤ line.addr_vec.length then
    let channel := line.addr_vec.headD 0
    let bank := (line.addr_vec.drop 1).headD 0
    let weight_addr := ((line.addr_vec.take 4).foldl
        (fun a x => a * 65536 + x % 65536) 0) % (2 ^ 64)
    if line.op = "W" ∨ line.op = "compute" ∨ line.op = "C" then
      let global_bank_id := channel * num_banks + bank
      if global_bank_id < num_banks then m.insertAddr global_bank_id weight_addr
      else m
    else m
  else m

/-- `StaticWeightLoader::load_from_trace`: the map is seeded with an empty
signature set for every bank, returned as-is when the file cannot be
opened, and otherwise folded over the trace lines. -/
def load_from_trace (file : Option (List TraceLine)) (num_banks : Nat) : WeightMap :=
  let bank_to_weights : WeightMap :=
    (List.range num_banks).map (fun i => (i, ([] : List Nat)))
  match file with
  | none => bank_to_weights
  | some lines => lines.foldl (load_line num_banks) bank_to_weights

/-! ## Bank index decomposition and recomposition

`KVCacheTraceGenerator::bank_id_to_addr_vec` (kv_cache_trace_generator.h
lines 52-73) walks levels `bank_level, …, 0`, storing `bank_id % count[j]`
at level `j` and dividing.  The recomposition inside
`PimTraceKVAware::expand_trace` computes
`global_bank_id += addr_vec[i] * multiplier` with the multiplier growing by
`count[i]` as `i` ascends from 0.  `counts` below is
`[count[0], …, count[bank_level]]` and address vectors are restricted to
those levels. -/

/-- Little-endian digit extraction: digit for the first radix first. -/
def digitsLE : List Nat → Nat → List Nat
  | [], _ => []
  | c :: cs, b => b % c :: digitsLE cs (b / c)

/-- The decomposition loop of `bank_id_to_addr_vec`: level `bank_level`
receives `bank_id % count[bank_level]` first, so the least-significant
digit sits at the highest index. -/
def bank_id_to_addr_vec (counts : List Nat) (bank_id : Nat) : List Nat :=
  (digitsLE counts.reverse bank_id).reverse

/-- The recomposition loop of `expand_trace`: index 0 is taken as the
least-significant digit. -/
def global_bank_id_of_addr_vec : List Nat → List Nat → Nat
  | c :: cs, a :: rest => a + c * global_bank_id_of_addr_vec cs rest
  | _, _ => 0

/-! ## Concrete states used to exercise the theorems -/

/-- Static-weight map of the concrete test scenario: banks 0-11 hold one
signature each, banks 12-15 none. -/
def scenario_map : WeightMap :=
  (List.range 16).map (fun i => (i, if i < 12 then [7] else []))

/-- Freshly initialised ContentionAware policy on 16 weight-free banks. -/
def ca_demo : ContentionAwarePolicy := ContentionAwarePolicy.init 16 []

/-- State of `ca_demo` after one allocation entered with the cursor at its
process-start value 3. -/
def ca_after_one : ContentionAwarePolicy :=
  (ContentionAwarePolicy.allocate_kv_cache_bank 3 ca_demo 0).2.2

/-- ContentionAware policy on 4 banks, weights on banks 0 and 1. -/
def ca_mixed : ContentionAwarePolicy :=
  ContentionAwarePolicy.init 4 [(0, [1, 2]), (1, [3])]

/-- SmartLocality policy on 4 banks, weights on banks 0 and 1. -/
def sl_mixed : SmartLocalityPolicy :=
  SmartLocalityPolicy.init 4 [(0, [1, 2]), (1, [3])]

/-- BankPartitioning policy reserving banks 12-15 of the scenario. -/
def bp_demo : BankPartitioningPolicy :=
  BankPartitioningPolicy.init 16 scenario_map 4 12

/-- Naive policy on 16 banks with static map `m`, after allocating tokens
`0, …, k-1` in order from a fresh `init`. -/
def naive_scenario_run (m : WeightMap) (k : Nat) : NaiveKVCachePolicy :=
  NaiveKVCachePolicy.run (NaiveKVCachePolicy.init 16 m) (List.range k)

/-! # Theorems -/

/-- C10: for the BankPartitioning policy, `has_bank_conflict b` is false for
every bank outside the reserved range `[start, start + count)` whatever the
static-weight map holds for `b`; inside the range it reports exactly whether
the map has a non-empty entry for `b`. -/
theorem bp_conflict_only_inside_reserved_range :
    (∀ (s : BankPartitioningPolicy) (b : Nat),
        (b < s.kv_cache_banks_start ∨
          s.kv_cache_banks_start + s.kv_cache_banks_count ≤ b) →
        s.has_bank_conflict b = false) ∧
    (∀ (s : BankPartitioningPolicy) (b : Nat),
        s.kv_cache_banks_start ≤ b →
        b < s.kv_cache_banks_start + s.kv_cache_banks_count →
        s.has_bank_conflict b = hasNonemptyEntry s.static_weight_mapping b) := by
  constructor
  · intro s b hb
    unfold BankPartitioningPolicy.has_bank_conflict
    rw [if_neg]
    omega
  · intro s b hb1 hb2
    unfold BankPartitioningPolicy.has_bank_conflict
    rw [if_pos]
    exact ⟨hb1, hb2⟩

theorem bp_conflict_only_inside_reserved_range_witness :
    bp_demo.has_bank_conflict 5 = false ∧
    bp_demo.has_bank_conflict 12 = hasNonemptyEntry bp_demo.static_weight_mapping 12 :=
  ⟨bp_conflict_only_inside_reserved_range.1 bp_demo 5 (by decide),
   bp_conflict_only_inside_reserved_range.2 bp_demo 12 (by decide) (by decide)⟩

/-- C9 counterexample: `ContentionAwarePolicy::reset_stats` does not leave
the per-bank dynamic allocation counts intact — after one allocation bank 4
holds one entry, and resetting the statistics zeroes that count. -/
theorem ca_reset_stats_clears_dynamic_counts_cex :
    ca_after_one.dynamic_alloc_count 4 = 1 ∧
    (ContentionAwarePolicy.reset_stats ca_after_one).dynamic_alloc_count 4 = 0 ∧
    (ContentionAwarePolicy.reset_stats ca_after_one).dynamic_alloc_count 4 ≠
      ca_after_one.dynamic_alloc_count 4 := by
  refine ⟨by decide, by decide, by decide⟩

/-- C9 amended: for every policy `reset_stats` zeroes the statistics
counters; for Naive and BankPartitioning the allocation state (token table,
round-robin cursor) is untouched, while for ContentionAware and
SmartLocality the per-bank dynamic allocation counts (and ContentionAware's
allocation order) are cleared as well — only the token table and the static
weight data survive there. -/
theorem reset_stats_effects :
    (∀ s : NaiveKVCachePolicy,
        s.reset_stats.total_allocations = 0 ∧ s.reset_stats.total_conflicts = 0 ∧
        s.reset_stats.next_bank = s.next_bank ∧
        s.reset_stats.token_to_bank = s.token_to_bank ∧
        s.reset_stats.static_weight_mapping = s.static_weight_mapping) ∧
    (∀ s : BankPartitioningPolicy,
        s.reset_stats.total_allocations = 0 ∧ s.reset_stats.total_conflicts = 0 ∧
        s.reset_stats.next_kv_bank = s.next_kv_bank ∧
        s.reset_stats.kv_cache_banks_start = s.kv_cache_banks_start ∧
        s.reset_stats.kv_cache_banks_count = s.kv_cache_banks_count ∧
        s.reset_stats.token_to_bank = s.token_to_bank) ∧
    (∀ s : ContentionAwarePolicy,
        s.reset_stats.total_allocations = 0 ∧ s.reset_stats.total_conflicts = 0 ∧
        s.reset_stats.dynamic_alloc_count = (fun _ => 0) ∧
        s.reset_stats.allocation_order = [] ∧
        s.reset_stats.token_to_bank = s.token_to_bank ∧
        s.reset_stats.static_weight_count = s.static_weight_count) ∧
    (∀ s : SmartLocalityPolicy,
        s.reset_stats.total_allocations = 0 ∧ s.reset_stats.total_conflicts = 0 ∧
        s.reset_stats.dynamic_alloc_count = (fun _ => 0) ∧
        s.reset_stats.token_to_bank = s.token_to_bank ∧
        s.reset_stats.static_weight_count = s.static_weight_count) := by
  refine ⟨fun s => ⟨rfl, rfl, rfl, rfl, rfl⟩,
          fun s => ⟨rfl, rfl, rfl, rfl, rfl, rfl⟩,
          fun s => ⟨rfl, rfl, rfl, rfl, rfl, rfl⟩,
          fun s => ⟨rfl, rfl, rfl, rfl, rfl⟩⟩

/-- C3 counterexample: with 8 banks and no configuration, the reserved bank
count comes out as the constant 4, not `N/4 = 2`. -/
theorem bp_default_count_is_constant_cex :
    (BankPartitioningPolicy.init_default 8 []).kv_cache_banks_count = 4 ∧
    (BankPartitioningPolicy.init_default 8 []).kv_cache_banks_count ≠ 8 / 4 := by
  refine ⟨by decide, by decide⟩

/-- C3 amended: `kv_cache_banks_count` defaults to the constant 4 (not
`N/4`) and `kv_cache_banks_start` to 0; for `N ≥ 4` the defaults survive the
clamp unchanged, and after `init` with any configured values and `N ≥ 1`
the count is at least 1 and the reserved range lies within `[0, N)`. -/
theorem bp_init_defaults_and_clamp :
    (∀ (num_banks : Nat) (m : WeightMap), 4 ≤ num_banks →
        (BankPartitioningPolicy.init_default num_banks m).kv_cache_banks_count = 4 ∧
        (BankPartitioningPolicy.init_default num_banks m).kv_cache_banks_start = 0) ∧
    (∀ (num_banks : Nat) (m : WeightMap) (cfg_count cfg_start : Int),
        1 ≤ num_banks →
        1 ≤ (BankPartitioningPolicy.init num_banks m cfg_count cfg_start).kv_cache_banks_count ∧
        (BankPartitioningPolicy.init num_banks m cfg_count cfg_start).kv_cache_banks_start +
          (BankPartitioningPolicy.init num_banks m cfg_count cfg_start).kv_cache_banks_count ≤
          num_banks) := by
  constructor
  · intro num_banks m h4
    unfold BankPartitioningPolicy.init_default BankPartitioningPolicy.init bp_clamp
    dsimp only
    split_ifs <;> dsimp only <;> omega
  · intro num_banks m cfg_count cfg_start h1
    unfold BankPartitioningPolicy.init bp_clamp
    dsimp only
    split_ifs <;> dsimp only <;> omega

theorem bp_init_defaults_and_clamp_witness :
    ((BankPartitioningPolicy.init_default 16 []).kv_cache_banks_count = 4 ∧
      (BankPartitioningPolicy.init_default 16 []).kv_cache_banks_start = 0) ∧
    (1 ≤ (BankPartitioningPolicy.init 16 [] 100 (-5)).kv_cache_banks_count ∧
      (BankPartitioningPolicy.init 16 [] 100 (-5)).kv_cache_banks_start +
        (BankPartitioningPolicy.init 16 [] 100 (-5)).kv_cache_banks_count ≤ 16) :=
  ⟨bp_init_defaults_and_clamp.1 16 [] (by decide),
   bp_init_defaults_and_clamp.2 16 [] 100 (-5) (by decide)⟩

/-- C8 counterexample: when the trace file cannot be opened the loader does
not return the empty map — with one bank the result carries an entry for
bank 0 (holding an empty signature set). -/
theorem load_from_trace_open_failure_cex :
    load_from_trace none 1 = [(0, [])] ∧ load_from_trace none 1 ≠ [] := by
  refine ⟨by decide, by decide⟩

/-- Looking a bank up in the all-banks-empty seed map yields either nothing
or an empty signature set. -/
theorem lookup_seed_map (l : List Nat) (b : Nat) :
    (l.map (fun i => (i, ([] : List Nat)))).lookup b = none ∨
    (l.map (fun i => (i, ([] : List Nat)))).lookup b = some [] := by
  induction l with
  | nil => exact Or.inl rfl
  | cons x xs ih =>
    rcases eq_or_ne b x with h | h
    · right
      simp [List.lookup, h]
    · have hbx : (b == x) = false := beq_eq_false_iff_ne.mpr h
      simpa [List.lookup, hbx] using ih

/-- C8 amended: if the trace file cannot be opened,
`StaticWeightLoader::load_from_trace` returns the seed map that assigns an
empty signature set to every bank in `[0, N)` — so no bank is mapped to any
weight signature, though the map itself is non-empty for `N > 0`; this is
the normal (non-error) path. -/
theorem load_from_trace_open_failure_no_signatures :
    ∀ num_banks : Nat,
      load_from_trace none num_banks =
        (List.range num_banks).map (fun i => (i, ([] : List Nat))) ∧
      (∀ b : Nat, hasNonemptyEntry (load_from_trace none num_banks) b = false) := by
  intro num_banks
  refine ⟨rfl, fun b => ?_⟩
  unfold hasNonemptyEntry load_from_trace
  rcases lookup_seed_map (List.range num_banks) b with h | h <;> simp [h]

/-- C6: the mixed-radix decomposition of `bank_id_to_addr_vec` and the
recomposition used in `expand_trace` are not mutually inverse — the first
writes the least-significant digit at the bank level while the second reads
it at index 0.  With organisation counts `[4, 4]` (16 banks) the valid bank
index 1 decomposes to `[0, 1]`, which recomposes to 4, not 1. -/
theorem project_decompose_roundtrip_fails :
    bank_id_to_addr_vec [4, 4] 1 = [0, 1] ∧
    global_bank_id_of_addr_vec [4, 4] (bank_id_to_addr_vec [4, 4] 1) = 4 ∧
    (4 : Nat) ≠ 1 ∧ 1 < 4 * 4 := by
  refine ⟨by decide, by decide, by decide, by decide⟩

/-- C5 counterexample: two ContentionAware instances with identical
parameters, identical (fresh) policy state and the same token disagree on
the chosen bank when the function-local `static int last_allocated_bank`
cursor differs — the choice consults process-global state beyond the
policy's own prior state and parameters. -/
theorem ca_choice_reads_process_global_cursor_cex :
    (ContentionAwarePolicy.allocate_kv_cache_bank 3 ca_demo 0).1 = 4 ∧
    (ContentionAwarePolicy.allocate_kv_cache_bank 4 ca_demo 0).1 = 5 ∧
    (ContentionAwarePolicy.allocate_kv_cache_bank 3 ca_demo 0).1 ≠
      (ContentionAwarePolicy.allocate_kv_cache_bank 4 ca_demo 0).1 := by
  refine ⟨by decide, by decide, by decide⟩

/-- C5 amended: the bank choice is a deterministic function of the policy's
prior state, its parameters, and (for ContentionAware) the process-global
static cursor; whole runs over equal configurations, equal weight maps,
equal cursors and equal token streams produce equal outputs, with no other
input consulted. -/
theorem allocation_deterministic_given_state_and_cursor :
    (∀ (g₁ g₂ tok₁ tok₂ : Nat) (s₁ s₂ : ContentionAwarePolicy),
        g₁ = g₂ → s₁ = s₂ → tok₁ = tok₂ →
        ContentionAwarePolicy.allocate_kv_cache_bank g₁ s₁ tok₁ =
          ContentionAwarePolicy.allocate_kv_cache_bank g₂ s₂ tok₂) ∧
    (∀ (g₁ g₂ : Nat) (s₁ s₂ : ContentionAwarePolicy) (ts₁ ts₂ : List Nat),
        g₁ = g₂ → s₁ = s₂ → ts₁ = ts₂ →
        ContentionAwarePolicy.run g₁ s₁ ts₁ = ContentionAwarePolicy.run g₂ s₂ ts₂) ∧
    (∀ (s₁ s₂ : NaiveKVCachePolicy) (ts₁ ts₂ : List Nat),
        s₁ = s₂ → ts₁ = ts₂ →
        NaiveKVCachePolicy.run s₁ ts₁ = NaiveKVCachePolicy.run s₂ ts₂) ∧
    (∀ (s₁ s₂ : SmartLocalityPolicy) (tok₁ tok₂ : Nat),
        s₁ = s₂ → tok₁ = tok₂ →
        SmartLocalityPolicy.allocate_kv_cache_bank s₁ tok₁ =
          SmartLocalityPolicy.allocate_kv_cache_bank s₂ tok₂) := by
  refine ⟨?_, ?_, ?_, ?_⟩
  · intro g₁ g₂ tok₁ tok₂ s₁ s₂ hg hs ht
    rw [hg, hs, ht]
  · intro g₁ g₂ s₁ s₂ ts₁ ts₂ hg hs ht
    rw [hg, hs, ht]
  · intro s₁ s₂ ts₁ ts₂ hs ht
    rw [hs, ht]
  · intro s₁ s₂ tok₁ tok₂ hs ht
    rw [hs, ht]

theorem allocation_deterministic_witness :
    ContentionAwarePolicy.allocate_kv_cache_bank 3 ca_demo 0 =
      ContentionAwarePolicy.allocate_kv_cache_bank 3 ca_demo 0 :=
  allocation_deterministic_given_state_and_cursor.1 3 3 0 0 ca_demo ca_demo rfl rfl rfl

/-- Set insertion never produces an empty set. -/
theorem setInsert_isEmpty_false (s : List Nat) (a : Nat) :
    (setInsert s a).isEmpty = false := by
  unfold setInsert
  split_ifs with h
  · cases s with
    | nil => simp at h
    | cons x xs => rfl
  · rfl

/-- Every tracker call leaves the bank count unchanged. -/
theorem trackerOp_num_banks (op : TrackerOp) (t : BankConflictTracker) :
    (op.apply t).num_banks = t.num_banks := by
  cases op <;>
    simp only [TrackerOp.apply, BankConflictTracker.register_weight_operation,
      BankConflictTracker.register_kv_cache_operation,
      BankConflictTracker.complete_weight_operation,
      BankConflictTracker.complete_kv_cache_operation,
      BankConflictTracker.reset_stats] <;>
    split_ifs <;> rfl

/-- A run of tracker calls leaves the bank count unchanged. -/
theorem runTrackerOps_num_banks (ops : List TrackerOp) :
    ∀ t : BankConflictTracker, (runTrackerOps ops t).num_banks = t.num_banks := by
  induction ops with
  | nil => intro t; rfl
  | cons op rest ih =>
    intro t
    have hstep : runTrackerOps (op :: rest) t = runTrackerOps rest (op.apply t) := rfl
    rw [hstep, ih, trackerOp_num_banks]

/-- No tracker call can empty a bank's KV usage set: registrations insert,
completions touch only the active vectors, `reset_stats` only counters. -/
theorem trackerOp_preserves_kv_usage_nonempty (op : TrackerOp)
    (t : BankConflictTracker) (b : Nat)
    (h : (t.kv_cache_bank_usage b).isEmpty = false) :
    ((op.apply t).kv_cache_bank_usage b).isEmpty = false := by
  cases op with
  | registerWeight b' a c =>
    simp only [TrackerOp.apply, BankConflictTracker.register_weight_operation]
    split_ifs <;> exact h
  | registerKV b' a c =>
    simp only [TrackerOp.apply, BankConflictTracker.register_kv_cache_operation]
    split_ifs
    all_goals
      first
      | exact h
      | (rcases eq_or_ne b b' with hbb | hbb <;>
          simp [hbb, setInsert_isEmpty_false, h])
  | completeWeight b' a =>
    simp only [TrackerOp.apply, BankConflictTracker.complete_weight_operation]
    split_ifs <;> exact h
  | completeKV b' a =>
    simp only [TrackerOp.apply, BankConflictTracker.complete_kv_cache_operation]
    split_ifs <;> exact h
  | resetStats =>
    exact h

/-- No tracker call can empty a bank's weight usage set. -/
theorem trackerOp_preserves_weight_usage_nonempty (op : TrackerOp)
    (t : BankConflictTracker) (b : Nat)
    (h : (t.weight_bank_usage b).isEmpty = false) :
    ((op.apply t).weight_bank_usage b).isEmpty = false := by
  cases op with
  | registerWeight b' a c =>
    simp only [TrackerOp.apply, BankConflictTracker.register_weight_operation]
    split_ifs
    all_goals
      first
      | exact h
      | (rcases eq_or_ne b b' with hbb | hbb <;>
          simp [hbb, setInsert_isEmpty_false, h])
  | registerKV b' a c =>
    simp only [TrackerOp.apply, BankConflictTracker.register_kv_cache_operation]
    split_ifs <;> exact h
  | completeWeight b' a =>
    simp only [TrackerOp.apply, BankConflictTracker.complete_weight_operation]
    split_ifs <;> exact h
  | completeKV b' a =>
    simp only [TrackerOp.apply, BankConflictTracker.complete_kv_cache_operation]
    split_ifs <;> exact h
  | resetStats =>
    exact h

/-- Runs of tracker calls preserve non-emptiness of a bank's KV usage set. -/
theorem runTrackerOps_preserves_kv_usage_nonempty (ops : List TrackerOp) :
    ∀ (t : BankConflictTracker) (b : Nat),
      (t.kv_cache_bank_usage b).isEmpty = false →
      ((runTrackerOps ops t).kv_cache_bank_usage b).isEmpty = false := by
  induction ops with
  | nil => intro t b h; exact h
  | cons op rest ih =>
    intro t b h
    exact ih (op.apply t) b (trackerOp_preserves_kv_usage_nonempty op t b h)

/-- Runs of tracker calls preserve non-emptiness of a bank's weight usage set. -/
theorem runTrackerOps_preserves_weight_usage_nonempty (ops : List TrackerOp) :
    ∀ (t : BankConflictTracker) (b : Nat),
      (t.weight_bank_usage b).isEmpty = false →
      ((runTrackerOps ops t).weight_bank_usage b).isEmpty = false := by
  induction ops with
  | nil => intro t b h; exact h
  | cons op rest ih =>
    intro t b h
    exact ih (op.apply t) b (trackerOp_preserves_weight_usage_nonempty op t b h)

/-- Registering a KV operation on a valid bank makes its KV usage set
non-empty. -/
theorem register_kv_usage_nonempty (t : BankConflictTracker) (b a c : Nat)
    (hb : b < t.num_banks) :
    ((t.register_kv_cache_operation b a c).kv_cache_bank_usage b).isEmpty = false := by
  unfold BankConflictTracker.register_kv_cache_operation
  rw [if_neg (by omega)]
  dsimp only
  split_ifs <;> simp [setInsert_isEmpty_false]

/-- Registering a weight operation on a valid bank makes its weight usage
set non-empty. -/
theorem register_weight_usage_nonempty (t : BankConflictTracker) (b a c : Nat)
    (hb : b < t.num_banks) :
    ((t.register_weight_operation b a c).weight_bank_usage b).isEmpty = false := by
  unfold BankConflictTracker.register_weight_operation
  rw [if_neg (by omega)]
  dsimp only
  split_ifs <;> simp [setInsert_isEmpty_false]

/-- Effect of a weight registration on a valid bank whose KV usage set is
non-empty. -/
theorem register_weight_conflict_effect (t : BankConflictTracker) (b a c : Nat)
    (hb : b < t.num_banks) (hkv : (t.kv_cache_bank_usage b).isEmpty = false) :
    (t.register_weight_operation b a c).total_conflicts = t.total_conflicts + 1 ∧
    (t.register_weight_operation b a c).weight_kv_conflicts = t.weight_kv_conflicts + 1 ∧
    (t.register_weight_operation b a c).conflict_history =
      t.conflict_history ++ [⟨b, c, "weight_kv"⟩] := by
  unfold BankConflictTracker.register_weight_operation
  rw [if_neg (by omega)]
  dsimp only
  rw [if_neg (by simp [hkv])]
  exact ⟨rfl, rfl, rfl⟩

/-- Effect of a KV registration on a valid bank whose weight usage set is
non-empty. -/
theorem register_kv_conflict_effect (t : BankConflictTracker) (b a c : Nat)
    (hb : b < t.num_banks) (hw : (t.weight_bank_usage b).isEmpty = false) :
    (t.register_kv_cache_operation b a c).total_conflicts = t.total_conflicts + 1 ∧
    (t.register_kv_cache_operation b a c).kv_weight_conflicts = t.kv_weight_conflicts + 1 ∧
    (t.register_kv_cache_operation b a c).conflict_history =
      t.conflict_history ++ [⟨b, c, "kv_weight"⟩] := by
  unfold BankConflictTracker.register_kv_cache_operation
  rw [if_neg (by omega)]
  dsimp only
  rw [if_neg (by simp [hw])]
  exact ⟨rfl, rfl, rfl⟩

/-- C7: after `register_kv_cache_operation(b, a, c0)` on a valid bank `b`,
any interleaving of tracker calls (completions included, since completion
only prunes the active vector and never empties the usage set) leaves the
KV usage set of `b` non-empty, so every subsequent
`register_weight_operation(b, a', c)` increments `total_conflicts` and the
weight-blocked-by-KV counter and appends `{b, c, "weight_kv"}` to the
history — and symmetrically for a KV registration after a weight
registration on the same bank. -/
theorem register_after_opposite_class_always_conflicts :
    (∀ (t : BankConflictTracker) (b : Nat), b < t.num_banks →
      ∀ (a c0 : Nat) (ops : List TrackerOp) (a' c : Nat),
        ((runTrackerOps ops (t.register_kv_cache_operation b a c0)).register_weight_operation
            b a' c).total_conflicts =
          (runTrackerOps ops (t.register_kv_cache_operation b a c0)).total_conflicts + 1 ∧
        ((runTrackerOps ops (t.register_kv_cache_operation b a c0)).register_weight_operation
            b a' c).weight_kv_conflicts =
          (runTrackerOps ops (t.register_kv_cache_operation b a c0)).weight_kv_conflicts + 1 ∧
        ((runTrackerOps ops (t.register_kv_cache_operation b a c0)).register_weight_operation
            b a' c).conflict_history =
          (runTrackerOps ops (t.register_kv_cache_operation b a c0)).conflict_history ++
            [⟨b, c, "weight_kv"⟩]) ∧
    (∀ (t : BankConflictTracker) (b : Nat), b < t.num_banks →
      ∀ (a c0 : Nat) (ops : List TrackerOp) (a' c : Nat),
        ((runTrackerOps ops (t.register_weight_operation b a c0)).register_kv_cache_operation
            b a' c).total_conflicts =
          (runTrackerOps ops (t.register_weight_operation b a c0)).total_conflicts + 1 ∧
        ((runTrackerOps ops (t.register_weight_operation b a c0)).register_kv_cache_operation
            b a' c).kv_weight_conflicts =
          (runTrackerOps ops (t.register_weight_operation b a c0)).kv_weight_conflicts + 1 ∧
        ((runTrackerOps ops (t.register_weight_operation b a c0)).register_kv_cache_operation
            b a' c).conflict_history =
          (runTrackerOps ops (t.register_weight_operation b a c0)).conflict_history ++
            [⟨b, c, "kv_weight"⟩]) := by
  constructor
  · intro t b hb a c0 ops a' c
    have hb1 : b < (t.register_kv_cache_operation b a c0).num_banks :=
      lt_of_lt_of_eq hb (trackerOp_num_banks (TrackerOp.registerKV b a c0) t).symm
    have hb2 : b < (runTrackerOps ops (t.register_kv_cache_operation b a c0)).num_banks := by
      rw [runTrackerOps_num_banks]
      exact hb1
    have hkv :=
      runTrackerOps_preserves_kv_usage_nonempty ops (t.register_kv_cache_operation b a c0) b
        (register_kv_usage_nonempty t b a c0 hb)
    exact register_weight_conflict_effect _ b a' c hb2 hkv
  · intro t b hb a c0 ops a' c
    have hb1 : b < (t.register_weight_operation b a c0).num_banks :=
      lt_of_lt_of_eq hb (trackerOp_num_banks (TrackerOp.registerWeight b a c0) t).symm
    have hb2 : b < (runTrackerOps ops (t.register_weight_operation b a c0)).num_banks := by
      rw [runTrackerOps_num_banks]
      exact hb1
    have hw :=
      runTrackerOps_preserves_weight_usage_nonempty ops (t.register_weight_operation b a c0) b
        (register_weight_usage_nonempty t b a c0 hb)
    exact register_kv_conflict_effect _ b a' c hb2 hw

theorem register_after_opposite_class_witness :
    ((runTrackerOps [TrackerOp.completeKV 0 5, TrackerOp.resetStats]
        ((BankConflictTracker.mk_tracker 2).register_kv_cache_operation 0 5 1)).register_weight_operation
        0 6 9).total_conflicts =
      (runTrackerOps [TrackerOp.completeKV 0 5, TrackerOp.resetStats]
        ((BankConflictTracker.mk_tracker 2).register_kv_cache_operation 0 5 1)).total_conflicts + 1 ∧
    ((runTrackerOps [TrackerOp.completeWeight 1 4]
        ((BankConflictTracker.mk_tracker 2).register_weight_operation 1 4 2)).register_kv_cache_operation
        1 8 9).kv_weight_conflicts =
      (runTrackerOps [TrackerOp.completeWeight 1 4]
        ((BankConflictTracker.mk_tracker 2).register_weight_operation 1 4 2)).kv_weight_conflicts + 1 :=
  ⟨(register_after_opposite_class_always_conflicts.1 (BankConflictTracker.mk_tracker 2) 0
      (by decide) 5 1 [TrackerOp.completeKV 0 5, TrackerOp.resetStats] 6 9).1,
   (register_after_opposite_class_always_conflicts.2 (BankConflictTracker.mk_tracker 2) 1
      (by decide) 4 2 [TrackerOp.completeWeight 1 4] 8 9).2.1⟩

/-- A bank found by the ContentionAware round-robin scan has no static
weights, has room under the per-bank cap, and is a valid index. -/
theorem ca_scan_found (swc dyn : Nat → Nat) (num_banks : Nat) (hN : 0 < num_banks) :
    ∀ (fuel last b last' : Nat),
      ca_scan swc dyn num_banks fuel last = (some b, last') →
      swc b = 0 ∧ dyn b < 3 ∧ b < num_banks := by
  intro fuel
  induction fuel with
  | zero =>
    intro last b last' h
    simp [ca_scan] at h
  | succ fuel ih =>
    intro last b last' h
    simp only [ca_scan] at h
    split_ifs at h with hc
    · simp only [Prod.mk.injEq, Option.some.injEq] at h
      obtain ⟨rfl, -⟩ := h
      exact ⟨hc.1, hc.2, Nat.mod_lt _ hN⟩
    · exact ih ((last + 1) % num_banks) b last' h

/-- If the round-robin scan comes back empty, no bank inside its window
satisfied the predicate. -/
theorem ca_scan_none (swc dyn : Nat → Nat) (num_banks : Nat) :
    ∀ (fuel last last' : Nat),
      ca_scan swc dyn num_banks fuel last = (none, last') →
      ∀ i, i < fuel →
        ¬(swc ((last + 1 + i) % num_banks) = 0 ∧
          dyn ((last + 1 + i) % num_banks) < 3) := by
  intro fuel
  induction fuel with
  | zero => intro last last' _ i hi; omega
  | succ fuel ih =>
    intro last last' h i hi
    simp only [ca_scan] at h
    split_ifs at h with hc
    · simp at h
    · rcases Nat.eq_zero_or_pos i with hi0 | hip
      · subst hi0
        simpa using hc
      · obtain ⟨j, rfl⟩ : ∃ j, i = j + 1 := ⟨i - 1, by omega⟩
        have hstep := ih ((last + 1) % num_banks) last' h j (by omega)
        have harith : ((last + 1) % num_banks + 1 + j) % num_banks =
            (last + 1 + (j + 1)) % num_banks := by
          rw [Nat.add_assoc, Nat.mod_add_mod]
          congr 1
          omega
        rw [harith] at hstep
        exact hstep

/-- With fuel at least the bank count, the scan finds a bank whenever one
with no weights and a free slot exists. -/
theorem ca_scan_finds (swc dyn : Nat → Nat) (num_banks fuel last : Nat)
    (hN : 0 < num_banks) (hfuel : num_banks ≤ fuel)
    (hj : ∃ j, j < num_banks ∧ swc j = 0 ∧ dyn j < 3) :
    ∃ b last', ca_scan swc dyn num_banks fuel last = (some b, last') := by
  obtain ⟨j, hjN, hswc, hdyn⟩ := hj
  rcases hscan : ca_scan swc dyn num_banks fuel last with ⟨found, lastF⟩
  cases found with
  | some b => exact ⟨b, lastF, rfl⟩
  | none =>
    exfalso
    have hnone := ca_scan_none swc dyn num_banks fuel last lastF hscan
    have hLlt : (last + 1) % num_banks < num_banks := Nat.mod_lt _ hN
    have hi : (j + num_banks - (last + 1) % num_banks) % num_banks < fuel :=
      lt_of_lt_of_le (Nat.mod_lt _ hN) hfuel
    have hsum : (last + 1) % num_banks + (j + num_banks - (last + 1) % num_banks) =
        j + num_banks := by omega
    have hcover : (last + 1 + (j + num_banks - (last + 1) % num_banks) % num_banks)
        % num_banks = j := by
      rw [Nat.add_mod_mod, ← Nat.mod_add_mod, hsum, Nat.add_mod_right,
        Nat.mod_eq_of_lt hjN]
    exact hnone ((j + num_banks - (last + 1) % num_banks) % num_banks) hi
      (by rw [hcover]; exact ⟨hswc, hdyn⟩)

/-- The candidate-scoring fold of SmartLocality preserves any property held
by the initial best bank and by every candidate it visits. -/
theorem sl_foldl_select_mem (f : Nat → ℚ) :
    ∀ (l : List Nat) (P : Nat → Prop) (acc : Nat × Option ℚ),
      P acc.1 → (∀ x ∈ l, P x) →
      P ((l.foldl
        (fun (a : Nat × Option ℚ) bank_id =>
          if (match a.2 with
              | none => true
              | some m => decide (f bank_id < m)) then
            (bank_id, some (f bank_id))
          else a) acc).1) := by
  intro l
  induction l with
  | nil => intro P acc h _; exact h
  | cons x xs ih =>
    intro P acc hacc hall
    simp only [List.foldl]
    refine ih P _ ?_ ?_
    · dsimp only
      split_ifs with hcond
      · exact hall x (List.mem_cons_self x xs)
      · exact hacc
    · intro y hy
      exact hall y (List.mem_cons_of_mem x hy)

/-- The SmartLocality selection returns a member of the candidate list. -/
theorem sl_select_mem (score : Nat → ℚ) (candidates : List Nat)
    (h : candidates ≠ []) : sl_select score candidates ∈ candidates := by
  unfold sl_select
  refine sl_foldl_select_mem score candidates (fun b => b ∈ candidates) _ ?_ ?_
  · cases candidates with
    | nil => exact absurd rfl h
    | cons x xs => exact List.mem_cons_self x xs
  · intro y hy
    exact hy

/-- C1: for ContentionAware and SmartLocality, whenever some bank with zero
static-weight count still has fewer than the per-bank cap of 3 dynamic
allocations, `allocate_kv_cache_bank` never places the token on a bank with
non-zero static-weight count (the chosen bank's weight count is 0). -/
theorem contention_and_locality_avoid_weight_banks :
    (∀ (g : Nat) (s : ContentionAwarePolicy) (token_id : Nat),
        (∃ j, j < s.num_banks ∧ s.static_weight_count j = 0 ∧
          s.dynamic_alloc_count j < 3) →
        s.static_weight_count
          (ContentionAwarePolicy.allocate_kv_cache_bank g s token_id).1 = 0) ∧
    (∀ (s : SmartLocalityPolicy) (token_id : Nat),
        (∃ j, j < s.num_banks ∧ s.static_weight_count j = 0 ∧
          s.dynamic_alloc_count j < 3) →
        s.static_weight_count
          (SmartLocalityPolicy.allocate_kv_cache_bank s token_id).1 = 0) := by
  constructor
  · intro g s token_id hj
    have hN : 0 < s.num_banks := by
      obtain ⟨j, hjN, -, -⟩ := hj
      omega
    obtain ⟨b, lastF, hscan⟩ := ca_scan_finds s.static_weight_count
      s.dynamic_alloc_count s.num_banks (s.num_banks * 2) g hN (by omega) hj
    have hprop := ca_scan_found s.static_weight_count s.dynamic_alloc_count
      s.num_banks hN (s.num_banks * 2) g b lastF hscan
    unfold ContentionAwarePolicy.allocate_kv_cache_bank
    dsimp only
    rw [hscan]
    exact hprop.1
  · intro s token_id hj
    obtain ⟨j, hjN, hswc, -⟩ := hj
    have hjmem : j ∈ (List.range s.num_banks).filter
        (fun b => s.static_weight_count b = 0) := by
      simp [List.mem_filter, List.mem_range, hjN, hswc]
    have hne : (List.range s.num_banks).filter
        (fun b => s.static_weight_count b = 0) ≠ [] := by
      intro hnil
      rw [hnil] at hjmem
      simp at hjmem
    unfold SmartLocalityPolicy.allocate_kv_cache_bank
    dsimp only
    rw [if_neg (by simp [List.isEmpty_iff, hne])]
    have hmem := sl_select_mem (sl_score s)
      ((List.range s.num_banks).filter (fun b => s.static_weight_count b = 0)) hne
    rw [List.mem_filter] at hmem
    simpa using hmem.2

theorem contention_and_locality_avoid_weight_banks_witness :
    ca_mixed.static_weight_count
      (ContentionAwarePolicy.allocate_kv_cache_bank 0 ca_mixed 0).1 = 0 ∧
    sl_mixed.static_weight_count
      (SmartLocalityPolicy.allocate_kv_cache_bank sl_mixed 0).1 = 0 :=
  ⟨contention_and_locality_avoid_weight_banks.1 0 ca_mixed 0
      ⟨2, by decide, by decide, by decide⟩,
   contention_and_locality_avoid_weight_banks.2 sl_mixed 0
      ⟨2, by decide, by decide, by decide⟩⟩

/-- One more token extends the scenario run by one allocation call. -/
theorem naive_scenario_run_succ (m : WeightMap) (k : Nat) :
    naive_scenario_run m (k + 1) =
      ((naive_scenario_run m k).allocate_kv_cache_bank k).2 := by
  unfold naive_scenario_run NaiveKVCachePolicy.run
  rw [List.range_succ, List.foldl_append]
  rfl

/-- Field-level description of one Naive allocation on a policy with a
non-zero bank count. -/
theorem naive_allocate_step (s : NaiveKVCachePolicy) (tok : Nat)
    (hN : ¬s.num_banks = 0) :
    (s.allocate_kv_cache_bank tok).1 = s.next_bank ∧
    (s.allocate_kv_cache_bank tok).2.num_banks = s.num_banks ∧
    (s.allocate_kv_cache_bank tok).2.next_bank = (s.next_bank + 1) % s.num_banks ∧
    (s.allocate_kv_cache_bank tok).2.static_weight_mapping = s.static_weight_mapping ∧
    (s.allocate_kv_cache_bank tok).2.total_allocations = s.total_allocations + 1 ∧
    (s.allocate_kv_cache_bank tok).2.total_conflicts = s.total_conflicts +
      (if hasNonemptyEntry s.static_weight_mapping s.next_bank then 1 else 0) ∧
    (s.allocate_kv_cache_bank tok).2.token_to_bank =
      (fun t => if t = tok then some s.next_bank else s.token_to_bank t) := by
  unfold NaiveKVCachePolicy.allocate_kv_cache_bank NaiveKVCachePolicy.has_bank_conflict
  rw [if_neg hN]
  dsimp only
  split_ifs with hc
  · exact ⟨rfl, rfl, rfl, rfl, rfl, rfl, rfl⟩
  · exact ⟨rfl, rfl, rfl, rfl, rfl, rfl, rfl⟩

/-- Invariant of the 16-bank scenario run: the cursor is `k mod 16`, every
allocated token `t` sits on bank `t mod 16`, and the conflict counter is
`12·(k/16) + min (k mod 16) 12`. -/
theorem naive_scenario_state (m : WeightMap)
    (hm : ∀ b, b < 16 → hasNonemptyEntry m b = decide (b < 12)) :
    ∀ k : Nat,
      (naive_scenario_run m k).num_banks = 16 ∧
      (naive_scenario_run m k).next_bank = k % 16 ∧
      (naive_scenario_run m k).static_weight_mapping = m ∧
      (naive_scenario_run m k).total_allocations = k ∧
      (naive_scenario_run m k).total_conflicts = 12 * (k / 16) + min (k % 16) 12 ∧
      (∀ t, t < k → (naive_scenario_run m k).token_to_bank t = some (t % 16)) := by
  intro k
  induction k with
  | zero =>
    refine ⟨rfl, rfl, rfl, rfl, rfl, ?_⟩
    intro t ht
    omega
  | succ k ih =>
    obtain ⟨ihN, ihnext, ihmap, ihalloc, ihconf, ihtok⟩ := ih
    have hstep := naive_allocate_step (naive_scenario_run m k) k (by omega)
    obtain ⟨-, hN, hnext, hmap, halloc, hconf, htok⟩ := hstep
    rw [naive_scenario_run_succ]
    refine ⟨by rw [hN, ihN], ?_, by rw [hmap, ihmap], by rw [halloc, ihalloc], ?_, ?_⟩
    · rw [hnext, ihnext, ihN]
      omega
    · rw [hconf, ihconf, ihmap, ihnext, hm (k % 16) (by omega)]
      rcases Nat.lt_or_ge (k % 16) 12 with hlt | hge
      · rw [if_pos (by simpa using hlt)]
        omega
      · rw [if_neg (by simpa using Nat.not_lt.mpr hge)]
        omega
    · intro t ht
      rw [htok]
      dsimp only
      rcases eq_or_ne t k with rfl | hne
      · rw [if_pos rfl, ihnext]
      · rw [if_neg hne]
        exact ihtok t (by omega)

/-- C2: with 16 banks and a static map non-empty exactly on banks 0-11, the
Naive policy allocating tokens 0-511 in order yields 512 allocations and
384 conflicts, sends token 0 to bank 0, token 15 to bank 15 and in general
token `t` to bank `t mod 16`; the bank choice is the round-robin cursor
(`next_bank := (next_bank + 1) mod N`), ignoring the weight map. -/
theorem naive_scenario_512 :
    (∀ m : WeightMap, (∀ b, b < 16 → hasNonemptyEntry m b = decide (b < 12)) →
      (naive_scenario_run m 512).total_allocations = 512 ∧
      (naive_scenario_run m 512).total_conflicts = 384 ∧
      (naive_scenario_run m 512).token_to_bank 0 = some 0 ∧
      (naive_scenario_run m 512).token_to_bank 15 = some 15 ∧
      (∀ t, t < 512 → (naive_scenario_run m 512).token_to_bank t = some (t % 16))) ∧
    (∀ (s : NaiveKVCachePolicy) (token_id : Nat), ¬s.num_banks = 0 →
      (s.allocate_kv_cache_bank token_id).1 = s.next_bank ∧
      (s.allocate_kv_cache_bank token_id).2.next_bank =
        (s.next_bank + 1) % s.num_banks) ∧
    (∀ (s : NaiveKVCachePolicy) (m₁ m₂ : WeightMap) (token_id : Nat),
      ({ s with static_weight_mapping := m₁ }.allocate_kv_cache_bank token_id).1 =
      ({ s with static_weight_mapping := m₂ }.allocate_kv_cache_bank token_id).1) := by
  refine ⟨?_, ?_, ?_⟩
  · intro m hm
    obtain ⟨hN, hnext, hmap, halloc, hconf, htok⟩ := naive_scenario_state m hm 512
    refine ⟨halloc, ?_, ?_, ?_, htok⟩
    · rw [hconf]
      decide
    · simpa using htok 0 (by omega)
    · simpa using htok 15 (by omega)
  · intro s token_id hN
    have h := naive_allocate_step s token_id hN
    exact ⟨h.1, h.2.2.1⟩
  · intro s m₁ m₂ token_id
    unfold NaiveKVCachePolicy.allocate_kv_cache_bank
    dsimp only
    split_ifs <;> rfl

theorem naive_scenario_512_witness :
    (naive_scenario_run scenario_map 512).total_allocations = 512 ∧
    (naive_scenario_run scenario_map 512).total_conflicts = 384 ∧
    (NaiveKVCachePolicy.allocate_kv_cache_bank
        (NaiveKVCachePolicy.init 16 scenario_map) 0).1 =
      (NaiveKVCachePolicy.init 16 scenario_map).next_bank :=
  ⟨(naive_scenario_512.1 scenario_map (by decide)).1,
   (naive_scenario_512.1 scenario_map (by decide)).2.1,
   (naive_scenario_512.2.1 (NaiveKVCachePolicy.init 16 scenario_map) 0 (by decide)).1⟩

/-- A ContentionAware allocation never changes the bank count or the static
weight counters. -/
theorem ca_allocate_preserves (g : Nat) (s : ContentionAwarePolicy) (tok : Nat) :
    (ContentionAwarePolicy.allocate_kv_cache_bank g s tok).2.2.num_banks = s.num_banks ∧
    (ContentionAwarePolicy.allocate_kv_cache_bank g s tok).2.2.static_weight_count =
      s.static_weight_count := by
  unfold ContentionAwarePolicy.allocate_kv_cache_bank
  dsimp only
  split_ifs <;> exact ⟨rfl, rfl⟩

/-- A ContentionAware allocation bumps exactly the chosen bank's dynamic
counter. -/
theorem ca_allocate_dyn (g : Nat) (s : ContentionAwarePolicy) (tok : Nat) :
    (ContentionAwarePolicy.allocate_kv_cache_bank g s tok).2.2.dynamic_alloc_count =
      fun x =>
        if x = (ContentionAwarePolicy.allocate_kv_cache_bank g s tok).1 then
          s.dynamic_alloc_count x + 1
        else s.dynamic_alloc_count x := by
  unfold ContentionAwarePolicy.allocate_kv_cache_bank
  dsimp only
  split_ifs <;> rfl

/-- When all banks are weight-free and some bank still has room, the chosen
bank is valid and had room. -/
theorem ca_allocate_picks_free_bank (g : Nat) (s : ContentionAwarePolicy) (tok : Nat)
    (hN : 0 < s.num_banks)
    (hzero : ∀ b, b < s.num_banks → s.static_weight_count b = 0)
    (hfree : ∃ j, j < s.num_banks ∧ s.dynamic_alloc_count j < 3) :
    (ContentionAwarePolicy.allocate_kv_cache_bank g s tok).1 < s.num_banks ∧
    s.dynamic_alloc_count (ContentionAwarePolicy.allocate_kv_cache_bank g s tok).1 < 3 := by
  obtain ⟨j, hj, hdyn⟩ := hfree
  obtain ⟨b, lastF, hscan⟩ := ca_scan_finds s.static_weight_count s.dynamic_alloc_count
    s.num_banks (s.num_banks * 2) g hN (by omega) ⟨j, hj, hzero j hj, hdyn⟩
  have hprop := ca_scan_found s.static_weight_count s.dynamic_alloc_count
    s.num_banks hN (s.num_banks * 2) g b lastF hscan
  unfold ContentionAwarePolicy.allocate_kv_cache_bank
  dsimp only
  rw [hscan]
  exact ⟨hprop.2.2, hprop.2.1⟩

/-- Summing a pointwise bump at a member index adds one to the sum. -/
theorem sum_if_update (N b : Nat) (hb : b < N) (f : Nat → Nat) :
    (∑ x in Finset.range N, if x = b then f x + 1 else f x) =
      (∑ x in Finset.range N, f x) + 1 := by
  have hsplit : ∀ x, (if x = b then f x + 1 else f x) = f x + (if x = b then 1 else 0) := by
    intro x
    split_ifs <;> omega
  calc (∑ x in Finset.range N, if x = b then f x + 1 else f x)
      = ∑ x in Finset.range N, (f x + if x = b then 1 else 0) :=
        Finset.sum_congr rfl (fun x _ => hsplit x)
    _ = (∑ x in Finset.range N, f x) + ∑ x in Finset.range N, (if x = b then 1 else 0) :=
        Finset.sum_add_distrib
    _ = (∑ x in Finset.range N, f x) + 1 := by
        rw [Finset.sum_ite_eq' (Finset.range N) b (fun _ => 1),
          if_pos (Finset.mem_range.mpr hb)]

/-- Invariant carried through a ContentionAware run on weight-free banks:
counters stay at most 3 and their sum grows by one per allocation. -/
theorem ca_run_invariant (N : Nat) :
    ∀ (tokens : List Nat) (g : Nat) (s : ContentionAwarePolicy),
      s.num_banks = N → 0 < N →
      (∀ b, b < N → s.static_weight_count b = 0) →
      (∀ b, b < N → s.dynamic_alloc_count b ≤ 3) →
      (∑ x in Finset.range N, s.dynamic_alloc_count x) + tokens.length ≤ 3 * N →
      (ContentionAwarePolicy.run g s tokens).2.num_banks = N ∧
      (∀ b, b < N → (ContentionAwarePolicy.run g s tokens).2.static_weight_count b = 0) ∧
      (∀ b, b < N → (ContentionAwarePolicy.run g s tokens).2.dynamic_alloc_count b ≤ 3) ∧
      (∑ x in Finset.range N, (ContentionAwarePolicy.run g s tokens).2.dynamic_alloc_count x) =
        (∑ x in Finset.range N, s.dynamic_alloc_count x) + tokens.length := by
  intro tokens
  induction tokens with
  | nil =>
    intro g s hNb hN hzero hle hsum
    exact ⟨hNb, hzero, hle, rfl⟩
  | cons t ts ih =>
    intro g s hNb hN hzero hle hsum
    have hlen : (t :: ts).length = ts.length + 1 := rfl
    have hfree : ∃ j, j < s.num_banks ∧ s.dynamic_alloc_count j < 3 := by
      by_contra hcon
      push_neg at hcon
      have hall : ∀ x ∈ Finset.range N, 3 ≤ s.dynamic_alloc_count x := by
        intro x hx
        exact hcon x (by rw [hNb]; exact Finset.mem_range.mp hx)
      have hsum3 : 3 * N ≤ ∑ x in Finset.range N, s.dynamic_alloc_count x := by
        calc 3 * N = ∑ _x in Finset.range N, 3 := by
              rw [Finset.sum_const, Finset.card_range]
              ring
          _ ≤ ∑ x in Finset.range N, s.dynamic_alloc_count x := Finset.sum_le_sum hall
      rw [hlen] at hsum
      omega
    have hpick := ca_allocate_picks_free_bank g s t (by omega)
      (by rw [hNb]; exact hzero) hfree
    have hpres := ca_allocate_preserves g s t
    have hdyn := ca_allocate_dyn g s t
    have hrun : ContentionAwarePolicy.run g s (t :: ts) =
        ContentionAwarePolicy.run
          (ContentionAwarePolicy.allocate_kv_cache_bank g s t).2.1
          (ContentionAwarePolicy.allocate_kv_cache_bank g s t).2.2 ts := rfl
    rw [hrun]
    have hstep := ih (ContentionAwarePolicy.allocate_kv_cache_bank g s t).2.1
      (ContentionAwarePolicy.allocate_kv_cache_bank g s t).2.2
      (by rw [hpres.1, hNb])
      hN
      (by
        intro b hb
        rw [hpres.2]
        exact hzero b hb)
      (by
        intro b hb
        rw [hdyn]
        dsimp only
        split_ifs with hbb
        · subst hbb
          have := hpick.2
          omega
        · exact hle b hb)
      (by
        rw [hdyn]
        dsimp only
        rw [sum_if_update N
          (ContentionAwarePolicy.allocate_kv_cache_bank g s t).1
          (by rw [← hNb]; exact hpick.1) s.dynamic_alloc_count]
        rw [hlen] at hsum
        omega)
    refine ⟨hstep.1, hstep.2.1, hstep.2.2.1, ?_⟩
    rw [hstep.2.2.2, hdyn]
    dsimp only
    rw [sum_if_update N (ContentionAwarePolicy.allocate_kv_cache_bank g s t).1
      (by rw [← hNb]; exact hpick.1) s.dynamic_alloc_count, hlen]
    omega

/-- Counters bounded by 3 summing to `3 · N` are all exactly 3. -/
theorem all_eq_three_of_sum (N : Nat) (f : Nat → Nat)
    (hle : ∀ b, b < N → f b ≤ 3)
    (hsum : (∑ x in Finset.range N, f x) = 3 * N) :
    ∀ b, b < N → f b = 3 := by
  intro b hb
  by_contra hne
  have hblt : f b < 3 := lt_of_le_of_ne (hle b hb) hne
  have hlt : (∑ x in Finset.range N, f x) < ∑ _x in Finset.range N, 3 :=
    Finset.sum_lt_sum (fun i hi => hle i (Finset.mem_range.mp hi))
      ⟨b, Finset.mem_range.mpr hb, hblt⟩
  rw [Finset.sum_const, Finset.card_range, smul_eq_mul] at hlt
  omega

/-- C4: from a freshly initialised ContentionAware policy whose map gives
every bank zero static-weight count, `N · 3` allocations (any cursor start,
any token ids) leave every bank's dynamic allocation count at exactly the
per-bank cap 3. -/
theorem ca_zero_weights_fills_every_bank_to_cap :
    ∀ (N g : Nat) (m : WeightMap) (tokens : List Nat),
      0 < N →
      (∀ b, b < N → (ContentionAwarePolicy.init N m).static_weight_count b = 0) →
      tokens.length = N * 3 →
      ∀ b, b < N →
        (ContentionAwarePolicy.run g (ContentionAwarePolicy.init N m)
          tokens).2.dynamic_alloc_count b = 3 := by
  intro N g m tokens hN hzero hlen b hb
  have hinitN : (ContentionAwarePolicy.init N m).num_banks = N := by
    unfold ContentionAwarePolicy.init
    dsimp only
    rw [if_neg (by omega)]
  have hinitdyn : (ContentionAwarePolicy.init N m).dynamic_alloc_count = fun _ => 0 := rfl
  have hzero_sum : (∑ _x in Finset.range N, (0 : Nat)) = 0 := by simp
  have hinv := ca_run_invariant N tokens g (ContentionAwarePolicy.init N m) hinitN hN hzero
    (by
      intro x hx
      rw [hinitdyn]
      simp)
    (by
      rw [hinitdyn, hlen]
      simp only []
      rw [hzero_sum]
      omega)
  refine all_eq_three_of_sum N _ hinv.2.2.1 ?_ b hb
  rw [hinv.2.2.2, hinitdyn, hlen]
  simp only []
  rw [hzero_sum]
  omega

theorem ca_zero_weights_fills_witness :
    (ContentionAwarePolicy.run 3 (ContentionAwarePolicy.init 2 [])
      [0, 1, 2, 3, 4, 5]).2.dynamic_alloc_count 0 = 3 ∧
    (ContentionAwarePolicy.run 3 (ContentionAwarePolicy.init 2 [])
      [0, 1, 2, 3, 4, 5]).2.dynamic_alloc_count 1 = 3 :=
  ⟨ca_zero_weights_fills_every_bank_to_cap 2 3 [] [0, 1, 2, 3, 4, 5]
      (by decide) (by decide) (by decide) 0 (by decide),
   ca_zero_weights_fills_every_bank_to_cap 2 3 [] [0, 1, 2, 3, 4, 5]
      (by decide) (by decide) (by decide) 1 (by decide)⟩

end KVCPIM
